import Mathlib

/-!
# Verification of the newsbot pipeline core

A shallow embedding of the newsbot repository's store layer
(`internal/store`), scraper (`internal/scraper`), AI enrichment
(`internal/ai`), and the pipeline orchestration (`internal/scheduler`,
`main.go`), with theorems settling the spec's claims.

Modelling conventions:
* Timestamps are `Int`, counting seconds.  The Go code stores times as
  RFC3339 UTC strings and compares them lexicographically in SQL; for
  RFC3339 UTC strings with four-digit years that order coincides with
  chronological order, so an `Int` with `≤` is a faithful model.  Go's
  zero time (an unknown published time) is the smallest value ever
  stored and is modelled as `0`.
* SQLite rows are Lean structures; tables are lists of rows.  The
  `AUTOINCREMENT` surrogate key of `article_analysis` is omitted: no
  query reads it (joins use `article_id`).  The `articles` surrogate key
  is kept because joins use it; `SaveArticle` assigns it freshly, as
  `AUTOINCREMENT` does.
* Fallible operations return `Except String`; network/model calls are
  oracles passed in as functions.
-/

namespace Newsbot

/-- A row of the `blogs` table (`store.Blog`). -/
structure Blog where
  id : Nat
  domain : String
  score : Int
  author : String
  rank : Int
  deriving Repr, DecidableEq

/-- A row of the `articles` table (`store.Article`).
`publishedAt = 0` models Go's zero time (unknown published time). -/
structure Article where
  id : Nat
  blogDomain : String
  title : String
  url : String
  summary : String
  publishedAt : Int
  scrapedAt : Int
  deriving Repr, DecidableEq

/-- A row of the `article_analysis` table (`store.ArticleAnalysis`).
`notifiedAt = none` models a NULL `notified_at`. -/
structure ArticleAnalysis where
  articleID : Nat
  relevance : Int
  quality : Int
  timeliness : Int
  totalScore : Int
  category : String
  keywords : String
  aiSummary : String
  titleCN : String
  recommendReason : String
  analyzedAt : Int
  notifiedAt : Option Int
  deriving Repr, DecidableEq

/-- `store.ArticleWithAnalysis`: a joined row. -/
structure ArticleWithAnalysis where
  article : Article
  analysis : ArticleAnalysis
  deriving Repr, DecidableEq

/-- The SQLite database state (`store.Store`). -/
structure Store where
  blogs : List Blog
  articles : List Article
  analyses : List ArticleAnalysis
  deriving Repr, DecidableEq

/-! ## Sorting, modelling SQL `ORDER BY key DESC` -/

/-- Insert `x` into a list kept in descending `key` order. -/
def insertKeyDesc (key : α → Int) (x : α) : List α → List α
  | [] => [x]
  | y :: ys => if key y ≤ key x then x :: y :: ys else y :: insertKeyDesc key x ys

/-- Insertion sort by descending `key`, modelling `ORDER BY key DESC`. -/
def sortByKeyDesc (key : α → Int) : List α → List α
  | [] => []
  | x :: xs => insertKeyDesc key x (sortByKeyDesc key xs)

/-- Descending order by `key`, as a pairwise property. -/
def DescBy (key : α → Int) (l : List α) : Prop :=
  l.Pairwise (fun a b => key b ≤ key a)

/-! ## Store operations (`internal/store`, file of `part_002`) -/

/-- `windowCutoff`: the cutoff time for a named window.  Unsupported
windows are an error, never a silent default. -/
def windowCutoff (window : String) (now : Int) : Except String Int :=
  match window with
  | "24h" => .ok (now - 24 * 3600)
  | "3days" => .ok (now - 72 * 3600)
  | "7days" => .ok (now - 168 * 3600)
  | _ => .error ("unsupported time window: " ++ window)

/-- The next `AUTOINCREMENT` id for the `articles` table. -/
def freshArticleID (s : Store) : Nat :=
  (s.articles.map (fun a => a.id)).foldl max 0 + 1

/-- `Store.SaveArticle`: `INSERT OR IGNORE` keyed on the UNIQUE `url`
column.  A duplicate URL leaves the store unchanged and reports no
error (the model has no error channel: the Go error is only a transport
failure). -/
def SaveArticle (a : Article) (s : Store) : Store :=
  if s.articles.any (fun b => b.url == a.url) then s
  else { s with articles := s.articles ++ [{ a with id := freshArticleID s }] }

/-- `Store.SaveBlogs`: upsert each blog by its UNIQUE `domain`,
overwriting `score`, `author`, `rank`. -/
def SaveBlog (b : Blog) (s : Store) : Store :=
  if s.blogs.any (fun c => c.domain == b.domain) then
    { s with blogs := s.blogs.map (fun c =>
        if c.domain == b.domain then
          { c with score := b.score, author := b.author, rank := b.rank }
        else c) }
  else { s with blogs := s.blogs ++ [b] }

def SaveBlogs (bs : List Blog) (s : Store) : Store :=
  bs.foldl (fun st b => SaveBlog b st) s

/-- The `ON CONFLICT(article_id) DO UPDATE` clause of
`SaveArticleAnalysis`: every content column is overwritten from the
excluded row; `article_id` and `notified_at` are not in the SET list. -/
def updateFromExcluded (a r : ArticleAnalysis) : ArticleAnalysis :=
  { r with
    relevance := a.relevance, quality := a.quality,
    timeliness := a.timeliness, totalScore := a.totalScore,
    category := a.category, keywords := a.keywords,
    aiSummary := a.aiSummary, titleCN := a.titleCN,
    recommendReason := a.recommendReason, analyzedAt := a.analyzedAt }

/-- `Store.SaveArticleAnalysis`: upsert by the UNIQUE `article_id`.  The
INSERT column list omits `notified_at`, so a fresh row gets NULL; the
conflict UPDATE does not touch `notified_at`. -/
def SaveArticleAnalysis (a : ArticleAnalysis) (s : Store) : Store :=
  if s.analyses.any (fun r => r.articleID == a.articleID) then
    { s with analyses := s.analyses.map (fun r =>
        if r.articleID == a.articleID then updateFromExcluded a r else r) }
  else { s with analyses := s.analyses ++ [{ a with notifiedAt := none }] }

/-- `Store.MarkNotified`: sets `notified_at = CURRENT_TIMESTAMP` for the
rows whose `article_id` is in the list; an empty list is an immediate
success with no write. -/
def MarkNotified (articleIDs : List Nat) (now : Int) (s : Store) : Store :=
  if articleIDs.isEmpty then s
  else { s with analyses := s.analyses.map (fun r =>
      if r.articleID ∈ articleIDs then { r with notifiedAt := some now } else r) }

/-- `Store.ArticlesByTimeWindow`: articles with
`published_at >= cutoff`, ordered by `published_at DESC`. -/
def ArticlesByTimeWindow (window : String) (now : Int) (s : Store) :
    Except String (List Article) :=
  match windowCutoff window now with
  | .error e => .error e
  | .ok cutoff =>
    .ok (sortByKeyDesc (fun a => a.publishedAt)
      (s.articles.filter (fun a => decide (cutoff ≤ a.publishedAt))))

/-- Whether an article id has an `article_analysis` row (the
`LEFT JOIN ... aa.id IS NULL` test of `UnanalyzedArticles`). -/
def hasAnalysis (s : Store) (id : Nat) : Bool :=
  s.analyses.any (fun r => r.articleID == id)

/-- `Store.UnanalyzedArticles`: articles in the window with no analysis
row yet, ordered by `published_at DESC`. -/
def UnanalyzedArticles (window : String) (now : Int) (s : Store) :
    Except String (List Article) :=
  match windowCutoff window now with
  | .error e => .error e
  | .ok cutoff =>
    .ok (sortByKeyDesc (fun a => a.publishedAt)
      (s.articles.filter (fun a =>
        decide (cutoff ≤ a.publishedAt) && !hasAnalysis s a.id)))

/-- The SQL inner join `articles a JOIN article_analysis aa ON
a.id = aa.article_id`. -/
def joinLists (arts : List Article) (anals : List ArticleAnalysis) :
    List ArticleWithAnalysis :=
  arts.foldr (fun a acc =>
    ((anals.filter (fun r => r.articleID == a.id)).map
      (fun r => ⟨a, r⟩)) ++ acc) []

def joinAnalyses (s : Store) : List ArticleWithAnalysis :=
  joinLists s.articles s.analyses

/-- `Store.UnsummarizedHighScoreArticles`: joined rows in the window
with `total_score >= minScore` and an empty `ai_summary`, ordered by
`total_score DESC`. -/
def UnsummarizedHighScoreArticles (window : String) (minScore : Int)
    (now : Int) (s : Store) : Except String (List ArticleWithAnalysis) :=
  match windowCutoff window now with
  | .error e => .error e
  | .ok cutoff =>
    .ok (sortByKeyDesc (fun p => p.analysis.totalScore)
      ((joinAnalyses s).filter (fun p =>
        decide (cutoff ≤ p.article.publishedAt) &&
        decide (minScore ≤ p.analysis.totalScore) &&
        p.analysis.aiSummary == "")))

/-- `Store.UnnotifiedAnalyses`: joined rows in the window with NULL
`notified_at`, ordered by `total_score DESC`, `LIMIT 20`. -/
def UnnotifiedAnalyses (window : String) (now : Int) (s : Store) :
    Except String (List ArticleWithAnalysis) :=
  match windowCutoff window now with
  | .error e => .error e
  | .ok cutoff =>
    .ok ((sortByKeyDesc (fun p => p.analysis.totalScore)
      ((joinAnalyses s).filter (fun p =>
        decide (cutoff ≤ p.article.publishedAt) &&
        p.analysis.notifiedAt.isNone))).take 20)

/-! ## Scraper (`internal/scraper/scraper.go`)

Feed retrieval is modelled by an oracle `fetch : String → Option (List
Article)`: `none` is a `parseFeed` error (including a timeout), `some
arts` a successful parse yielding `arts` (already normalized and capped
at 10 per source, as `parseFeed` does). -/

/-- The ordered feed-path suffixes tried by `scrapeBlog`. -/
def feedPaths : List String :=
  ["/feed", "/rss", "/atom.xml", "/feed.xml", "/rss.xml", "/index.xml",
   "/feeds/all.atom.xml"]

/-- The loop over `feedPaths` in `scrapeBlog`: accept the first path
whose fetch succeeds with at least one item. -/
def tryPaths (fetch : String → Option (List Article)) (domain : String) :
    List String → Option (List Article)
  | [] => none
  | p :: rest =>
    match fetch ("https://" ++ domain ++ p) with
    | some arts => if arts.length > 0 then some arts else tryPaths fetch domain rest
    | none => tryPaths fetch domain rest

/-- `scrapeBlog`: try the feed-path suffixes in order, then the bare
root once; `none` means "no feed found". -/
def scrapeBlog (fetch : String → Option (List Article)) (domain : String) :
    Option (List Article) :=
  match tryPaths fetch domain feedPaths with
  | some arts => some arts
  | none =>
    match fetch ("https://" ++ domain) with
    | some arts => if arts.length > 0 then some arts else none
    | none => none

/-- All retrieval locations of one source, in the order tried. -/
def candidateURLs (domain : String) : List String :=
  feedPaths.map (fun p => "https://" ++ domain ++ p) ++ ["https://" ++ domain]

/-- The spec's wording of the per-source retrieval policy, for
comparison with `scrapeBlog`: accept the result of the first location
that parses to at least one item, else nothing. -/
def firstAcceptedSpec (fetch : String → Option (List Article)) :
    List String → Option (List Article)
  | [] => none
  | u :: us =>
    match fetch u with
    | some arts => if arts.length > 0 then some arts else firstAcceptedSpec fetch us
    | none => firstAcceptedSpec fetch us

/-- `ScrapeBlogs`: each source's articles (if any) are tagged with its
domain and a scrape time and saved; a failed source saves nothing.  The
Go code runs sources in a bounded worker pool; since every save is an
independent keyed upsert, the drained pool is modelled as a fold. -/
def scrapeBlogsRun (fetch : String → Option (List Article)) (now : Int)
    (blogs : List Blog) (s : Store) : Store :=
  blogs.foldl (fun st b =>
    match scrapeBlog fetch b.domain with
    | none => st
    | some arts => arts.foldl
        (fun st2 a => SaveArticle { a with blogDomain := b.domain, scrapedAt := now } st2)
        st) s

/-! ## AI enrichment (`internal/ai`)

Model calls are oracles.  `ScoreArticle`'s failure modes (transport
error, non-JSON body after cleaning) are both an `Except.error`. -/

/-- Stage-A structured response (`ai.ScoreResult`). -/
structure ScoreResult where
  relevance : Int
  quality : Int
  timeliness : Int
  category : String
  keywords : List String
  deriving Repr, DecidableEq

/-- Stage-B structured response (`ai.SummaryResult`). -/
structure SummaryResult where
  summary : String
  titleCN : String
  recommendReason : String
  deriving Repr, DecidableEq

/-- `ai.maxRetries`. -/
def maxRetries : Nat := 3

/-- The retry loop body of `SummarizeArticle`.  `oracle n` is the
combined outcome of the model call and JSON parse on attempt `n`.
Returns the result, the number of calls made, and the seconds slept
after each failed attempt (`attempt * 2`, from
`time.Duration(attempt) * 2 * time.Second`). -/
def summarizeAux (oracle : Nat → Except String SummaryResult) :
    Nat → Nat → Except String SummaryResult × Nat × List Nat
  | _, 0 => (.error "failed after max attempts", 0, [])
  | attempt, remaining + 1 =>
    match oracle attempt with
    | .ok r => (.ok r, 1, [])
    | .error _ =>
      let rest := summarizeAux oracle (attempt + 1) remaining
      (rest.1, rest.2.1 + 1, attempt * 2 :: rest.2.2)

/-- `ai.SummarizeArticle`: up to `maxRetries` attempts starting at
attempt 1. -/
def SummarizeArticle (oracle : Nat → Except String SummaryResult) :
    Except String SummaryResult × Nat × List Nat :=
  summarizeAux oracle 1 maxRetries

/-- The per-article body of the enrichment loop, shared verbatim by
`runPipeline` step 3 and `cmdAnalyze`: score, derive the total, attempt
the summary (non-fatal), upsert.  A Stage-A failure writes nothing. -/
def processArticle (scoreO : Article → Except String ScoreResult)
    (summO : Article → Nat → Except String SummaryResult)
    (now : Int) (s : Store) (article : Article) : Store :=
  match scoreO article with
  | .error _ => s
  | .ok sr =>
    let base : ArticleAnalysis :=
      { articleID := article.id
        relevance := sr.relevance, quality := sr.quality
        timeliness := sr.timeliness
        totalScore := sr.relevance + sr.quality + sr.timeliness
        category := sr.category
        keywords := String.intercalate ", " sr.keywords
        aiSummary := "", titleCN := "", recommendReason := ""
        analyzedAt := now, notifiedAt := none }
    let analysis :=
      match (SummarizeArticle (summO article)).1 with
      | .error _ => base
      | .ok r => { base with aiSummary := r.summary, titleCN := r.titleCN,
                             recommendReason := r.recommendReason }
    SaveArticleAnalysis analysis s

/-- The enrichment loop over a list of articles. -/
def analyzeLoop (scoreO : Article → Except String ScoreResult)
    (summO : Article → Nat → Except String SummaryResult)
    (now : Int) (articles : List Article) (s : Store) : Store :=
  articles.foldl (processArticle scoreO summO now) s

/-- One iteration of the retry-unsummarized sweep (`runPipeline` step 3b
and the tail of `cmdAnalyze`): re-summarize, overwrite only the three
summary fields of the row read earlier, upsert; a failure skips. -/
def retrySummarizeStep (summO : Article → Nat → Except String SummaryResult)
    (s : Store) (item : ArticleWithAnalysis) : Store :=
  match (SummarizeArticle (summO item.article)).1 with
  | .error _ => s
  | .ok r =>
    SaveArticleAnalysis
      { item.analysis with aiSummary := r.summary, titleCN := r.titleCN,
                           recommendReason := r.recommendReason } s

/-- The retry-unsummarized sweep: items are read once, then written
back one at a time. -/
def retryLoop (summO : Article → Nat → Except String SummaryResult)
    (window : String) (minScore : Int) (now : Int) (s : Store) : Store :=
  match UnsummarizedHighScoreArticles window minScore now s with
  | .error _ => s
  | .ok items => items.foldl (retrySummarizeStep summO) s

/-! ## Notification and orchestration (`internal/scheduler`, `main.go`) -/

/-- Step 4 of `runPipeline`: notify via Telegram.  `tgConfigured` is
whether `telegram.New` returned a client; `trendOK` whether
`AnalyzeTrends` succeeded; `sendOK` whether `tg.Send` succeeded.  Every
failure is logged and leaves the store unchanged; only a successful
send is followed by `MarkNotified`. -/
def notifyStage (tgConfigured trendOK sendOK : Bool) (window : String)
    (now : Int) (s : Store) : Store :=
  if !tgConfigured then s
  else
    match UnnotifiedAnalyses window now s with
    | .error _ => s
    | .ok newArticles =>
      if newArticles.isEmpty then s
      else if !trendOK then s
      else if !sendOK then s
      else MarkNotified (newArticles.map (fun p => p.article.id)) now s

/-- `cmdNotify` in `main.go`: like `notifyStage`, but failures are
`log.Fatalf` (the process exits, modelled as an `Except.error` paired
with the unchanged store). -/
def cmdNotifyStep (tgConfigured trendOK sendOK : Bool) (window : String)
    (now : Int) (s : Store) : Store × Except String Unit :=
  if !tgConfigured then (s, .error "telegram not configured")
  else
    match UnnotifiedAnalyses window now s with
    | .error e => (s, .error e)
    | .ok newArticles =>
      if newArticles.isEmpty then (s, .ok ())
      else if !trendOK then (s, .error "failed to analyze trends")
      else if !sendOK then (s, .error "failed to send telegram notification")
      else (MarkNotified (newArticles.map (fun p => p.article.id)) now s, .ok ())

/-- The Telegram block at the end of `cmdReport` in `main.go`: same
guarded shape as `notifyStage` (the trend report was already computed
before this block; a send failure only logs a warning). -/
def cmdReportNotify (tgConfigured sendOK : Bool) (window : String)
    (now : Int) (s : Store) : Store :=
  if !tgConfigured then s
  else
    match UnnotifiedAnalyses window now s with
    | .error _ => s
    | .ok newArticles =>
      if newArticles.isEmpty then s
      else if !sendOK then s
      else MarkNotified (newArticles.map (fun p => p.article.id)) now s

/-- `cmdAnalyze` in `main.go`: score+summarize every article in the
window, then sweep the still-unsummarized ones.  Fatal exits (window
error, empty window) leave the store unchanged. -/
def cmdAnalyzeModel (scoreO : Article → Except String ScoreResult)
    (summO : Article → Nat → Except String SummaryResult)
    (window : String) (now : Int) (s : Store) : Store :=
  match ArticlesByTimeWindow window now s with
  | .error _ => s
  | .ok articles =>
    if articles.isEmpty then s
    else retryLoop summO window 0 now (analyzeLoop scoreO summO now articles s)

/-- `runPipeline` in `internal/scheduler`: fetch blogs (early return on
failure), save them, scrape, enrich the unanalyzed 7-day backlog, retry
summaries, then notify. -/
def runPipelineModel (blogsResult : Except String (List Blog))
    (fetch : String → Option (List Article))
    (scoreO : Article → Except String ScoreResult)
    (summO : Article → Nat → Except String SummaryResult)
    (tgConfigured trendOK sendOK : Bool) (now : Int) (s : Store) : Store :=
  match blogsResult with
  | .error _ => s
  | .ok blogs =>
    let s2 := scrapeBlogsRun fetch now blogs (SaveBlogs blogs s)
    match UnanalyzedArticles "7days" now s2 with
    | .error _ => s2
    | .ok articles =>
      notifyStage tgConfigured trendOK sendOK "7days" now
        (retryLoop summO "7days" 0 now (analyzeLoop scoreO summO now articles s2))

/-! ## Store operation traces and invariants -/

/-- Any write the repository ever performs against the store. -/
inductive StoreOp where
  | saveBlogs (bs : List Blog)
  | saveArticle (a : Article)
  | saveAnalysis (a : ArticleAnalysis)
  | markNotified (ids : List Nat) (t : Int)
  deriving Repr

def applyOp (s : Store) : StoreOp → Store
  | .saveBlogs bs => SaveBlogs bs s
  | .saveArticle a => SaveArticle a s
  | .saveAnalysis a => SaveArticleAnalysis a s
  | .markNotified ids t => MarkNotified ids t s

def applyOps (ops : List StoreOp) (s : Store) : Store :=
  ops.foldl applyOp s

/-- Article `id` has been delivered: it has at least one analysis row,
and every analysis row for it has `notified_at` set. -/
def delivered (id : Nat) (s : Store) : Prop :=
  (∃ r ∈ s.analyses, r.articleID = id) ∧
  ∀ r ∈ s.analyses, r.articleID = id → r.notifiedAt ≠ none

/-- The derived-score invariant: every analysis row's total is the sum
of its three sub-scores. -/
def scoresSum (s : Store) : Prop :=
  ∀ r ∈ s.analyses, r.totalScore = r.relevance + r.quality + r.timeliness

end Newsbot

/-! # Theorems -/

namespace Newsbot

theorem mem_insertKeyDesc (key : α → Int) (x a : α) (l : List α) :
    a ∈ insertKeyDesc key x l ↔ a = x ∨ a ∈ l := by
  induction l with
  | nil => simp [insertKeyDesc]
  | cons y ys ih =>
    rw [insertKeyDesc]
    by_cases h : key y ≤ key x
    · simp [h]
    · simp only [if_neg h, List.mem_cons, ih]
      tauto

theorem perm_insertKeyDesc (key : α → Int) (x : α) (l : List α) :
    (insertKeyDesc key x l).Perm (x :: l) := by
  induction l with
  | nil => simp [insertKeyDesc]
  | cons y ys ih =>
    rw [insertKeyDesc]
    by_cases h : key y ≤ key x
    · simp [h]
    · rw [if_neg h]
      exact (ih.cons y).trans (List.Perm.swap x y ys)

theorem perm_sortByKeyDesc (key : α → Int) (l : List α) :
    (sortByKeyDesc key l).Perm l := by
  induction l with
  | nil => simp [sortByKeyDesc]
  | cons x xs ih =>
    rw [sortByKeyDesc]
    exact (perm_insertKeyDesc key x (sortByKeyDesc key xs)).trans (ih.cons x)

theorem mem_sortByKeyDesc (key : α → Int) (a : α) (l : List α) :
    a ∈ sortByKeyDesc key l ↔ a ∈ l :=
  (perm_sortByKeyDesc key l).mem_iff

theorem descBy_insertKeyDesc (key : α → Int) (x : α) (l : List α)
    (h : DescBy key l) : DescBy key (insertKeyDesc key x l) := by
  induction l with
  | nil => simp [insertKeyDesc, DescBy]
  | cons y ys ih =>
    rw [DescBy, List.pairwise_cons] at h
    obtain ⟨hy, hys⟩ := h
    rw [DescBy, insertKeyDesc]
    by_cases hxy : key y ≤ key x
    · rw [if_pos hxy, List.pairwise_cons]
      refine ⟨?_, List.pairwise_cons.mpr ⟨hy, hys⟩⟩
      intro b hb
      rcases List.mem_cons.mp hb with rfl | hb
      · exact hxy
      · exact (hy b hb).trans hxy
    · rw [if_neg hxy, List.pairwise_cons]
      refine ⟨?_, ih hys⟩
      intro b hb
      rcases (mem_insertKeyDesc key x b ys).mp hb with rfl | hb
      · exact le_of_not_le hxy
      · exact hy b hb

theorem descBy_sortByKeyDesc (key : α → Int) (l : List α) :
    DescBy key (sortByKeyDesc key l) := by
  induction l with
  | nil => simp [sortByKeyDesc, DescBy]
  | cons x xs ih =>
    rw [sortByKeyDesc]
    exact descBy_insertKeyDesc key x _ ih

theorem mem_joinLists (arts : List Article) (anals : List ArticleAnalysis)
    (p : ArticleWithAnalysis) :
    p ∈ joinLists arts anals ↔
      p.article ∈ arts ∧ p.analysis ∈ anals ∧
        p.analysis.articleID = p.article.id := by
  obtain ⟨pa, pn⟩ := p
  induction arts with
  | nil => simp [joinLists]
  | cons a rest ih =>
    simp only [joinLists, List.foldr_cons, List.mem_append, List.mem_map,
      List.mem_filter, List.mem_cons, beq_iff_eq] at *
    constructor
    · rintro (⟨r, ⟨hr, hrid⟩, heq⟩ | h)
      · obtain ⟨h1, h2⟩ := ArticleWithAnalysis.mk.injEq .. ▸ heq
        subst h1; subst h2
        exact ⟨Or.inl rfl, hr, hrid⟩
      · obtain ⟨h1, h2, h3⟩ := ih.mp h
        exact ⟨Or.inr h1, h2, h3⟩
    · rintro ⟨h1 | h1, h2, h3⟩
      · subst h1
        exact Or.inl ⟨pn, ⟨h2, h3⟩, rfl⟩
      · exact Or.inr (ih.mpr ⟨h1, h2, h3⟩)

theorem analyses_saveArticle (a : Article) (s : Store) :
    (SaveArticle a s).analyses = s.analyses := by
  rw [SaveArticle]; split <;> rfl

theorem analyses_saveBlog (b : Blog) (s : Store) :
    (SaveBlog b s).analyses = s.analyses := by
  rw [SaveBlog]; split <;> rfl

theorem analyses_saveBlogs (bs : List Blog) (s : Store) :
    (SaveBlogs bs s).analyses = s.analyses := by
  induction bs generalizing s with
  | nil => rfl
  | cons b rest ih => rw [SaveBlogs, List.foldl_cons, ← SaveBlogs, ih, analyses_saveBlog]

theorem analyses_saveArticles_fold (arts : List Article) (f : Article → Article)
    (s : Store) :
    (arts.foldl (fun st a => SaveArticle (f a) st) s).analyses = s.analyses := by
  induction arts generalizing s with
  | nil => rfl
  | cons a rest ih => rw [List.foldl_cons, ih, analyses_saveArticle]

theorem analyses_scrapeBlogsRun (fetch : String → Option (List Article))
    (now : Int) (blogs : List Blog) (s : Store) :
    (scrapeBlogsRun fetch now blogs s).analyses = s.analyses := by
  induction blogs generalizing s with
  | nil => rfl
  | cons b rest ih =>
    rw [scrapeBlogsRun, List.foldl_cons, ← scrapeBlogsRun, ih]
    cases scrapeBlog fetch b.domain with
    | none => rfl
    | some arts => exact analyses_saveArticles_fold arts _ s

theorem updateFromExcluded_articleID (a r : ArticleAnalysis) :
    (updateFromExcluded a r).articleID = r.articleID := rfl

theorem updateFromExcluded_notifiedAt (a r : ArticleAnalysis) :
    (updateFromExcluded a r).notifiedAt = r.notifiedAt := rfl

/-- The upsert changes no row's `(article_id, notified_at)` pair; at
most it appends a fresh row with NULL `notified_at` — and then only
when no row with that `article_id` existed. -/
theorem saveAnalysis_idNotified (b : ArticleAnalysis) (s : Store) :
    ((SaveArticleAnalysis b s).analyses.map fun r => (r.articleID, r.notifiedAt)) =
        (s.analyses.map fun r => (r.articleID, r.notifiedAt)) ∨
      ((∀ r ∈ s.analyses, r.articleID ≠ b.articleID) ∧
        ((SaveArticleAnalysis b s).analyses.map fun r => (r.articleID, r.notifiedAt)) =
          (s.analyses.map fun r => (r.articleID, r.notifiedAt)) ++ [(b.articleID, none)]) := by
  rw [SaveArticleAnalysis]
  split
  next hc =>
    left
    rw [List.map_map]
    refine List.map_congr_left ?_
    intro r _
    show (fun r => (r.articleID, r.notifiedAt))
      (if r.articleID == b.articleID then updateFromExcluded b r else r) = _
    split <;> rfl
  next hc =>
    right
    constructor
    · intro r hr
      simp only [List.any_eq_true, beq_iff_eq] at hc
      exact fun he => hc ⟨r, hr, he⟩
    · simp

theorem delivered_saveArticle (id : Nat) (a : Article) (s : Store)
    (h : delivered id s) : delivered id (SaveArticle a s) := by
  rw [delivered, analyses_saveArticle]; exact h

theorem delivered_saveBlogs (id : Nat) (bs : List Blog) (s : Store)
    (h : delivered id s) : delivered id (SaveBlogs bs s) := by
  rw [delivered, analyses_saveBlogs]; exact h

theorem delivered_saveAnalysis (id : Nat) (b : ArticleAnalysis) (s : Store)
    (h : delivered id s) : delivered id (SaveArticleAnalysis b s) := by
  obtain ⟨⟨r0, hr0, hid0⟩, hall⟩ := h
  rw [SaveArticleAnalysis]
  split
  next hc =>
    constructor
    · refine ⟨(if r0.articleID == b.articleID then updateFromExcluded b r0 else r0),
        List.mem_map_of_mem _ hr0, ?_⟩
      split <;> exact hid0
    · intro r' hr' hid'
      obtain ⟨r, hr, rfl⟩ := List.mem_map.mp hr'
      revert hid'
      split <;> intro hid' <;> exact hall r hr hid'
  next hc =>
    constructor
    · exact ⟨r0, List.mem_append_left _ hr0, hid0⟩
    · intro r' hr' hid'
      rcases List.mem_append.mp hr' with h1 | h1
      · exact hall r' h1 hid'
      · exfalso
        simp only [List.mem_singleton] at h1
        subst h1
        simp only [List.any_eq_true, beq_iff_eq] at hc
        exact hc ⟨r0, hr0, by rw [hid0]; exact hid'.symm⟩

theorem delivered_markNotified (id : Nat) (ids : List Nat) (t : Int) (s : Store)
    (h : delivered id s) : delivered id (MarkNotified ids t s) := by
  obtain ⟨⟨r0, hr0, hid0⟩, hall⟩ := h
  rw [MarkNotified]
  split
  next => exact ⟨⟨r0, hr0, hid0⟩, hall⟩
  next =>
    constructor
    · refine ⟨(if r0.articleID ∈ ids then { r0 with notifiedAt := some t } else r0),
        List.mem_map_of_mem _ hr0, ?_⟩
      split <;> exact hid0
    · intro r' hr' hid'
      obtain ⟨r, hr, rfl⟩ := List.mem_map.mp hr'
      revert hid'
      split <;> intro hid'
      · simp
      · exact hall r hr hid'

theorem delivered_applyOp (id : Nat) (s : Store) (op : StoreOp)
    (h : delivered id s) : delivered id (applyOp s op) := by
  cases op with
  | saveBlogs bs => exact delivered_saveBlogs id bs s h
  | saveArticle a => exact delivered_saveArticle id a s h
  | saveAnalysis a => exact delivered_saveAnalysis id a s h
  | markNotified ids t => exact delivered_markNotified id ids t s h

theorem delivered_applyOps (id : Nat) (ops : List StoreOp) (s : Store)
    (h : delivered id s) : delivered id (applyOps ops s) := by
  induction ops generalizing s with
  | nil => exact h
  | cons op rest ih =>
    rw [applyOps, List.foldl_cons, ← applyOps]
    exact ih _ (delivered_applyOp id s op h)

/-- What membership in an `UnnotifiedAnalyses` result implies. -/
theorem mem_unnotifiedAnalyses (w : String) (now : Int) (s : Store)
    (l : List ArticleWithAnalysis)
    (h : UnnotifiedAnalyses w now s = .ok l)
    (p : ArticleWithAnalysis) (hp : p ∈ l) :
    p.article ∈ s.articles ∧ p.analysis ∈ s.analyses ∧
      p.analysis.articleID = p.article.id ∧ p.analysis.notifiedAt = none ∧
      ∀ c, windowCutoff w now = .ok c → c ≤ p.article.publishedAt := by
  rw [UnnotifiedAnalyses] at h
  cases hw : windowCutoff w now <;> rw [hw] at h
  · simp at h
  next cutoff =>
    injection h with h2
    subst h2
    have hp1 := List.mem_of_mem_take hp
    have hp2 := (mem_sortByKeyDesc _ _ _).mp hp1
    obtain ⟨hj, hcond⟩ := List.mem_filter.mp hp2
    obtain ⟨ha1, ha2, ha3⟩ := (mem_joinLists _ _ _).mp hj
    simp only [Bool.and_eq_true, decide_eq_true_eq,
      Option.isNone_iff_eq_none] at hcond
    refine ⟨ha1, ha2, ha3, hcond.2, ?_⟩
    intro c hc
    injection hc with hc2
    subst hc2
    exact hcond.1

/-- C1: once an article's `notified_at` is set to a non-null value, any
sequence of store operations keeps it set; the article never again
appears in an `UnnotifiedAnalyses` result, for any window; and the
`SaveArticleAnalysis` upsert never changes any row's
`(article_id, notified_at)` pair — at most it appends a fresh NULL row,
and then only for an article id that had no analysis row at all. -/
theorem notified_monotone (id : Nat) (s : Store) (h : delivered id s) :
    (∀ ops : List StoreOp, delivered id (applyOps ops s)) ∧
    (∀ (ops : List StoreOp) (w : String) (now : Int)
        (l : List ArticleWithAnalysis),
      UnnotifiedAnalyses w now (applyOps ops s) = .ok l →
        ∀ p ∈ l, p.article.id ≠ id) ∧
    (∀ (b : ArticleAnalysis) (s' : Store),
      ((SaveArticleAnalysis b s').analyses.map fun r => (r.articleID, r.notifiedAt)) =
          (s'.analyses.map fun r => (r.articleID, r.notifiedAt)) ∨
        ((∀ r ∈ s'.analyses, r.articleID ≠ b.articleID) ∧
          ((SaveArticleAnalysis b s').analyses.map fun r => (r.articleID, r.notifiedAt)) =
            (s'.analyses.map fun r => (r.articleID, r.notifiedAt)) ++ [(b.articleID, none)])) := by
  refine ⟨fun ops => delivered_applyOps id ops s h, ?_,
    fun b s' => saveAnalysis_idNotified b s'⟩
  intro ops w now l hl p hp
  obtain ⟨_, ha2, ha3, ha4, _⟩ := mem_unnotifiedAnalyses w now _ l hl p hp
  intro he
  have hd := delivered_applyOps id ops s h
  exact hd.2 p.analysis ha2 (ha3.trans he) ha4

/-- Witness for C1: a store with one delivered article. -/
theorem notified_monotone_witness :
    delivered 1 (Store.mk []
      [⟨1, "a.example", "T", "https://a.example/x", "", 100, 100⟩]
      [⟨1, 5, 4, 3, 12, "AI/ML", "k", "", "", "", 100, some 7⟩]) ∧
    ∀ ops : List StoreOp, delivered 1 (applyOps ops (Store.mk []
      [⟨1, "a.example", "T", "https://a.example/x", "", 100, 100⟩]
      [⟨1, 5, 4, 3, 12, "AI/ML", "k", "", "", "", 100, some 7⟩])) := by
  have hd : delivered 1 (Store.mk []
      [⟨1, "a.example", "T", "https://a.example/x", "", 100, 100⟩]
      [⟨1, 5, 4, 3, 12, "AI/ML", "k", "", "", "", 100, some 7⟩]) := by
    constructor
    · exact ⟨_, List.mem_singleton_self _, rfl⟩
    · intro r hr
      rw [List.mem_singleton] at hr
      subst hr
      intro _
      simp
  exact ⟨hd, (notified_monotone 1 _ hd).1⟩

/-- C10: `MarkNotified` touches only the `notified_at` column, and only
on rows whose `article_id` is listed; all other fields, all other rows,
and the other tables are unchanged; an empty id list writes nothing. -/
theorem markNotified_frame (ids : List Nat) (now : Int) (s : Store) :
    MarkNotified [] now s = s ∧
    (MarkNotified ids now s).blogs = s.blogs ∧
    (MarkNotified ids now s).articles = s.articles ∧
    (MarkNotified ids now s).analyses.length = s.analyses.length ∧
    ∀ (i : Nat) (r r' : ArticleAnalysis), s.analyses[i]? = some r →
      (MarkNotified ids now s).analyses[i]? = some r' →
      r'.articleID = r.articleID ∧ r'.relevance = r.relevance ∧
      r'.quality = r.quality ∧ r'.timeliness = r.timeliness ∧
      r'.totalScore = r.totalScore ∧ r'.category = r.category ∧
      r'.keywords = r.keywords ∧ r'.aiSummary = r.aiSummary ∧
      r'.titleCN = r.titleCN ∧ r'.recommendReason = r.recommendReason ∧
      r'.analyzedAt = r.analyzedAt ∧
      (r.articleID ∉ ids → r' = r) ∧
      (r.articleID ∈ ids → r'.notifiedAt = some now) := by
  refine ⟨by rw [MarkNotified]; rfl, ?_, ?_, ?_, ?_⟩
  · rw [MarkNotified]; split <;> rfl
  · rw [MarkNotified]; split <;> rfl
  · rw [MarkNotified]; split
    · rfl
    · exact List.length_map _ _
  · intro i r r' hr hr'
    by_cases hemp : ids.isEmpty = true
    · rw [MarkNotified, if_pos hemp, hr] at hr'
      injection hr' with h2
      subst h2
      rw [List.isEmpty_iff] at hemp
      subst hemp
      exact ⟨rfl, rfl, rfl, rfl, rfl, rfl, rfl, rfl, rfl, rfl, rfl,
        fun _ => rfl, fun hmem => absurd hmem (List.not_mem_nil _)⟩
    · rw [MarkNotified, if_neg hemp] at hr'
      simp only [List.getElem?_map, hr, Option.map_some'] at hr'
      injection hr' with h2
      subst h2
      by_cases hb : r.articleID ∈ ids
      · rw [if_pos hb]
        exact ⟨rfl, rfl, rfl, rfl, rfl, rfl, rfl, rfl, rfl, rfl, rfl,
          fun hn => absurd hb hn, fun _ => rfl⟩
      · rw [if_neg hb]
        exact ⟨rfl, rfl, rfl, rfl, rfl, rfl, rfl, rfl, rfl, rfl, rfl,
          fun _ => rfl, fun hmem => absurd hmem hb⟩

/-- Witness for C10 at a concrete two-row store. -/
theorem markNotified_frame_witness :
    (0 : Nat) < (Store.mk [] []
      [⟨1, 1, 1, 1, 3, "", "", "", "", "", 0, none⟩,
       ⟨2, 2, 2, 2, 6, "", "", "", "", "", 0, none⟩]).analyses.length ∧
    MarkNotified [] 9 (Store.mk [] []
      [⟨1, 1, 1, 1, 3, "", "", "", "", "", 0, none⟩,
       ⟨2, 2, 2, 2, 6, "", "", "", "", "", 0, none⟩]) = (Store.mk [] []
      [⟨1, 1, 1, 1, 3, "", "", "", "", "", 0, none⟩,
       ⟨2, 2, 2, 2, 6, "", "", "", "", "", 0, none⟩]) := by
  refine ⟨by decide, ?_⟩
  exact (markNotified_frame [1] 9 (Store.mk [] []
      [⟨1, 1, 1, 1, 3, "", "", "", "", "", 0, none⟩,
       ⟨2, 2, 2, 2, 6, "", "", "", "", "", 0, none⟩])).1

/-- C2: in the pipeline's notification stage, in the `notify` command
and in the `report` command's Telegram block, a failed `Send` marks
nothing: the store (in particular every `notified_at`) is unchanged,
and `MarkNotified` is reached only on the success path. -/
theorem sendFailure_marksNothing (tgc trendOK : Bool) (w : String)
    (now : Int) (s : Store) :
    notifyStage tgc trendOK false w now s = s ∧
    (cmdNotifyStep tgc trendOK false w now s).1 = s ∧
    cmdReportNotify tgc false w now s = s := by
  refine ⟨?_, ?_, ?_⟩
  · rw [notifyStage]
    split
    · rfl
    · cases UnnotifiedAnalyses w now s with
      | error e => rfl
      | ok l =>
        by_cases he : l.isEmpty = true
        · simp [he]
        · by_cases ht : trendOK = true <;> simp [he, ht]
  · rw [cmdNotifyStep]
    split
    · rfl
    · cases UnnotifiedAnalyses w now s with
      | error e => rfl
      | ok l =>
        by_cases he : l.isEmpty = true
        · simp [he]
        · by_cases ht : trendOK = true <;> simp [he, ht]
  · rw [cmdReportNotify]
    split
    · rfl
    · cases UnnotifiedAnalyses w now s with
      | error e => rfl
      | ok l =>
        by_cases he : l.isEmpty = true <;> simp [he]

/-- C3: `ArticlesByTimeWindow "24h"` returns exactly the stored
articles with published time ≥ now − 24h; the boundary article at
exactly now − 24h is included; an article with unknown published time
(the zero time) is excluded whenever the clock is more than 24h past
the epoch. -/
theorem articlesByTimeWindow_24h (now : Int) (s : Store) (res : List Article)
    (hres : ArticlesByTimeWindow "24h" now s = .ok res) :
    (∀ a : Article, a ∈ res ↔ (a ∈ s.articles ∧ now - 24 * 3600 ≤ a.publishedAt)) ∧
    (∀ a ∈ s.articles, a.publishedAt = now - 24 * 3600 → a ∈ res) ∧
    (24 * 3600 < now → ∀ a ∈ s.articles, a.publishedAt = 0 → a ∉ res) := by
  rw [ArticlesByTimeWindow] at hres
  have hw : windowCutoff "24h" now = .ok (now - 24 * 3600) := rfl
  rw [hw] at hres
  injection hres with h2
  subst h2
  have hmem : ∀ a : Article,
      a ∈ sortByKeyDesc (fun a => a.publishedAt)
        (s.articles.filter (fun a => decide (now - 24 * 3600 ≤ a.publishedAt))) ↔
      (a ∈ s.articles ∧ now - 24 * 3600 ≤ a.publishedAt) := by
    intro a
    rw [mem_sortByKeyDesc, List.mem_filter, decide_eq_true_eq]
  refine ⟨hmem, ?_, ?_⟩
  · intro a ha hb
    exact (hmem a).mpr ⟨ha, le_of_eq hb.symm⟩
  · intro hnow a _ hz hin
    have := ((hmem a).mp hin).2
    rw [hz] at this
    omega

/-- Witness for C3: one boundary article (published exactly at
now − 24h, included) and one zero-time article (excluded). -/
theorem articlesByTimeWindow_24h_witness :
    ArticlesByTimeWindow "24h" 100000 (Store.mk []
        [⟨1, "a", "t1", "u1", "", 13600, 1⟩, ⟨2, "b", "t2", "u2", "", 0, 1⟩] []) =
      .ok [⟨1, "a", "t1", "u1", "", 13600, 1⟩] ∧
    (⟨1, "a", "t1", "u1", "", 13600, 1⟩ : Article) ∈
      [(⟨1, "a", "t1", "u1", "", 13600, 1⟩ : Article)] ∧
    (⟨2, "b", "t2", "u2", "", 0, 1⟩ : Article) ∉
      [(⟨1, "a", "t1", "u1", "", 13600, 1⟩ : Article)] := by
  have h := articlesByTimeWindow_24h 100000 (Store.mk []
      [⟨1, "a", "t1", "u1", "", 13600, 1⟩, ⟨2, "b", "t2", "u2", "", 0, 1⟩] [])
      [⟨1, "a", "t1", "u1", "", 13600, 1⟩] rfl
  refine ⟨rfl, ?_, ?_⟩
  · exact h.2.1 _ (by decide) (by decide)
  · exact h.2.2 (by decide) _ (by decide) rfl

/-- C7: saving an article is idempotent on its URL: a duplicate insert
(same cycle or later) is a silent no-op leaving the whole store — in
particular the originally stored row — unchanged, and a URL first
inserted into a store without it occurs in exactly one row. -/
theorem saveArticle_idempotent (a a' : Article) (s : Store)
    (hurl : a'.url = a.url)
    (hfresh : s.articles.countP (fun b => b.url == a.url) = 0) :
    SaveArticle a' (SaveArticle a s) = SaveArticle a s ∧
    (SaveArticle a s).articles.countP (fun b => b.url == a.url) = 1 := by
  have hany : s.articles.any (fun b => b.url == a.url) = false := by
    rw [List.any_eq_false]
    intro b hb
    rw [List.countP_eq_zero] at hfresh
    exact hfresh b hb
  have hsave : SaveArticle a s =
      { s with articles := s.articles ++ [{ a with id := freshArticleID s }] } := by
    rw [SaveArticle, if_neg (by rw [hany]; exact Bool.false_ne_true)]
  constructor
  · rw [SaveArticle]
    rw [if_pos ?_]
    rw [hsave]
    simp only [List.any_append, List.any_cons, List.any_nil, Bool.or_eq_true]
    right
    left
    rw [hurl]
    exact beq_self_eq_true _
  · rw [hsave]
    simp only [List.countP_append, hfresh]
    simp [List.countP_cons]

/-- Witness for C7: inserting the same URL twice into an empty store. -/
theorem saveArticle_idempotent_witness :
    SaveArticle ⟨9, "b", "T2", "https://a/x", "", 5, 5⟩
        (SaveArticle ⟨0, "a", "T", "https://a/x", "", 3, 4⟩ (Store.mk [] [] [])) =
      SaveArticle ⟨0, "a", "T", "https://a/x", "", 3, 4⟩ (Store.mk [] [] []) ∧
    (SaveArticle ⟨0, "a", "T", "https://a/x", "", 3, 4⟩
        (Store.mk [] [] [])).articles.countP
      (fun b => b.url == "https://a/x") = 1 :=
  saveArticle_idempotent ⟨0, "a", "T", "https://a/x", "", 3, 4⟩
    ⟨9, "b", "T2", "https://a/x", "", 5, 5⟩ (Store.mk [] [] []) rfl (by decide)

/-- C9: an `UnnotifiedAnalyses` result contains only enriched,
in-window, unnotified rows, is ordered by total score descending, has
at most 20 entries, and — whenever at most 20 candidates exist —
contains exactly the candidates. -/
theorem unnotifiedAnalyses_spec (w : String) (now cutoff : Int) (s : Store)
    (l : List ArticleWithAnalysis)
    (hcut : windowCutoff w now = .ok cutoff)
    (h : UnnotifiedAnalyses w now s = .ok l) :
    (∀ p ∈ l, p.article ∈ s.articles ∧ p.analysis ∈ s.analyses ∧
      p.analysis.articleID = p.article.id ∧ cutoff ≤ p.article.publishedAt ∧
      p.analysis.notifiedAt = none) ∧
    DescBy (fun p => p.analysis.totalScore) l ∧
    l.length ≤ 20 ∧
    (((joinAnalyses s).filter (fun p =>
        decide (cutoff ≤ p.article.publishedAt) &&
          p.analysis.notifiedAt.isNone)).length ≤ 20 →
      ∀ p, p ∈ (joinAnalyses s).filter (fun p =>
        decide (cutoff ≤ p.article.publishedAt) &&
          p.analysis.notifiedAt.isNone) ↔ p ∈ l) := by
  have h0 := h
  rw [UnnotifiedAnalyses, hcut] at h
  injection h with h2
  subst h2
  refine ⟨?_, ?_, ?_, ?_⟩
  · intro p hp
    obtain ⟨h1, h2, h3, h4, h5⟩ := mem_unnotifiedAnalyses w now s _ h0 p hp
    exact ⟨h1, h2, h3, h5 cutoff hcut, h4⟩
  · exact (descBy_sortByKeyDesc _ _).sublist (List.take_sublist _ _)
  · exact List.length_take_le _ _
  · intro hle p
    have hlen : (sortByKeyDesc (fun p => p.analysis.totalScore)
        ((joinAnalyses s).filter (fun p =>
          decide (cutoff ≤ p.article.publishedAt) &&
            p.analysis.notifiedAt.isNone))).length ≤ 20 := by
      rw [(perm_sortByKeyDesc _ _).length_eq]
      exact hle
    rw [List.take_of_length_le hlen, mem_sortByKeyDesc]

/-- Witness for C9: a single enriched unnotified article. -/
theorem unnotifiedAnalyses_spec_witness :
    windowCutoff "24h" 100000 = .ok 13600 ∧
    UnnotifiedAnalyses "24h" 100000 (Store.mk []
        [⟨1, "a", "t", "u", "", 50000, 1⟩]
        [⟨1, 5, 4, 3, 12, "c", "k", "", "", "", 50000, none⟩]) =
      .ok [⟨⟨1, "a", "t", "u", "", 50000, 1⟩,
            ⟨1, 5, 4, 3, 12, "c", "k", "", "", "", 50000, none⟩⟩] ∧
    ([⟨⟨1, "a", "t", "u", "", 50000, 1⟩,
       ⟨1, 5, 4, 3, 12, "c", "k", "", "", "", 50000, none⟩⟩] :
      List ArticleWithAnalysis).length ≤ 20 :=
  ⟨rfl, rfl,
    (unnotifiedAnalyses_spec "24h" 100000 13600 (Store.mk []
        [⟨1, "a", "t", "u", "", 50000, 1⟩]
        [⟨1, 5, 4, 3, 12, "c", "k", "", "", "", 50000, none⟩])
      [⟨⟨1, "a", "t", "u", "", 50000, 1⟩,
        ⟨1, 5, 4, 3, 12, "c", "k", "", "", "", 50000, none⟩⟩] rfl rfl).2.2.1⟩

theorem tryPaths_eq_firstAccepted (fetch : String → Option (List Article))
    (domain : String) (ps : List String) :
    tryPaths fetch domain ps =
      firstAcceptedSpec fetch (ps.map (fun p => "https://" ++ domain ++ p)) := by
  induction ps with
  | nil => rfl
  | cons p rest ih =>
    rw [tryPaths, List.map_cons, firstAcceptedSpec]
    cases fetch ("https://" ++ domain ++ p) with
    | none => exact ih
    | some arts =>
      dsimp only
      by_cases hl : arts.length > 0
      · rw [if_pos hl, if_pos hl]
      · rw [if_neg hl, if_neg hl]
        exact ih

theorem firstAcceptedSpec_append_none (fetch : String → Option (List Article))
    (us vs : List String) (h : firstAcceptedSpec fetch us = none) :
    firstAcceptedSpec fetch (us ++ vs) = firstAcceptedSpec fetch vs := by
  induction us with
  | nil => rfl
  | cons u us ih =>
    rw [firstAcceptedSpec] at h
    rw [List.cons_append, firstAcceptedSpec]
    cases hu : fetch u with
    | none =>
      rw [hu] at h
      exact ih h
    | some arts =>
      rw [hu] at h
      dsimp only at h ⊢
      by_cases hl : arts.length > 0
      · rw [if_pos hl] at h
        cases h
      · rw [if_neg hl] at h ⊢
        exact ih h

theorem firstAcceptedSpec_append_some (fetch : String → Option (List Article))
    (us vs : List String) (arts : List Article)
    (h : firstAcceptedSpec fetch us = some arts) :
    firstAcceptedSpec fetch (us ++ vs) = some arts := by
  induction us with
  | nil => cases h
  | cons u us ih =>
    rw [firstAcceptedSpec] at h
    rw [List.cons_append, firstAcceptedSpec]
    cases hu : fetch u with
    | none =>
      rw [hu] at h
      exact ih h
    | some a2 =>
      rw [hu] at h
      dsimp only at h ⊢
      by_cases hl : a2.length > 0
      · rw [if_pos hl] at h ⊢
        exact h
      · rw [if_neg hl] at h ⊢
        exact ih h

theorem firstAcceptedSpec_allFail (fetch : String → Option (List Article))
    (us : List String) (h : ∀ u ∈ us, fetch u = none ∨ fetch u = some []) :
    firstAcceptedSpec fetch us = none := by
  induction us with
  | nil => rfl
  | cons u us ih =>
    rw [firstAcceptedSpec]
    rcases h u (List.mem_cons_self u us) with hu | hu <;> rw [hu] <;> dsimp only
    · exact ih (fun v hv => h v (List.mem_cons_of_mem u hv))
    · rw [if_neg (by simp)]
      exact ih (fun v hv => h v (List.mem_cons_of_mem u hv))

/-- C8: per-source retrieval tries the fixed feed-path suffixes in
order, accepts the first location that parses to at least one item,
falls back to the bare root exactly once, otherwise yields nothing for
that source; a failed source neither aborts the run nor affects the
articles saved for the other sources. -/
theorem scrapeBlog_policy (fetch : String → Option (List Article))
    (domain : String) (now : Int) :
    scrapeBlog fetch domain = firstAcceptedSpec fetch (candidateURLs domain) ∧
    ((∀ u ∈ candidateURLs domain, fetch u = none ∨ fetch u = some []) →
      scrapeBlog fetch domain = none) ∧
    (∀ (blogs₁ blogs₂ : List Blog) (b : Blog) (s : Store),
      scrapeBlog fetch b.domain = none →
      scrapeBlogsRun fetch now (blogs₁ ++ b :: blogs₂) s =
        scrapeBlogsRun fetch now (blogs₁ ++ blogs₂) s) := by
  have heq : scrapeBlog fetch domain = firstAcceptedSpec fetch (candidateURLs domain) := by
    rw [scrapeBlog, candidateURLs]
    cases ht : tryPaths fetch domain feedPaths with
    | some arts =>
      rw [tryPaths_eq_firstAccepted] at ht
      rw [firstAcceptedSpec_append_some fetch _ _ arts ht]
    | none =>
      rw [tryPaths_eq_firstAccepted] at ht
      rw [firstAcceptedSpec_append_none fetch _ _ ht, firstAcceptedSpec]
      dsimp only
      cases fetch ("https://" ++ domain) with
      | none => rfl
      | some arts =>
        dsimp only
        by_cases hl : arts.length > 0
        · rw [if_pos hl, if_pos hl]
        · rw [if_neg hl, if_neg hl]
          rfl
  refine ⟨heq, ?_, ?_⟩
  · intro hall
    rw [heq]
    exact firstAcceptedSpec_allFail fetch _ hall
  · intro blogs₁ blogs₂ b s hb
    rw [scrapeBlogsRun, scrapeBlogsRun, List.foldl_append, List.foldl_append,
      List.foldl_cons, hb]

/-- Witness for C8: a fetch oracle that fails everywhere. -/
theorem scrapeBlog_policy_witness :
    scrapeBlog (fun _ => none) "x.example" = none ∧
    scrapeBlogsRun (fun _ => none) 0 ([] ++ (⟨1, "x.example", 0, "", 1⟩ : Blog) :: [])
        (Store.mk [] [] []) =
      scrapeBlogsRun (fun _ => none) 0 ([] ++ []) (Store.mk [] [] []) :=
  ⟨rfl, (scrapeBlog_policy (fun _ => none) "x.example" 0).2.2 [] []
    ⟨1, "x.example", 0, "", 1⟩ (Store.mk [] [] []) rfl⟩

theorem summarizeAux_allFail (oracle : Nat → Except String SummaryResult)
    (h : ∀ n, (oracle n).toOption = none) (k a : Nat) :
    (summarizeAux oracle a k).2.1 = k ∧
    (summarizeAux oracle a k).2.2 = (List.range' a k).map (fun n => n * 2) ∧
    ∃ e, (summarizeAux oracle a k).1 = .error e := by
  induction k generalizing a with
  | zero => exact ⟨rfl, rfl, _, rfl⟩
  | succ k ih =>
    have ha := h a
    cases hoa : oracle a with
    | ok r =>
      rw [hoa] at ha
      cases ha
    | error e =>
      obtain ⟨ih1, ih2, e2, ih3⟩ := ih (a + 1)
      rw [summarizeAux, hoa]
      dsimp only
      refine ⟨by rw [ih1], ?_, e2, by rw [ih3]⟩
      rw [ih2, List.range'_succ, List.map_cons]

/-- C5: a Stage-B (summarize) call failing on every attempt is tried
exactly `maxRetries = 3` times; after each failed attempt `n` the code
sleeps `n * 2` seconds, so the delays between consecutive attempts are
1×2s and 2×2s (linearly increasing); the final result is an error; and
the enrichment loop still writes the analysis row with the Stage-A
fields populated and the three Stage-B fields empty. -/
theorem summarize_retry_bound (oracle : Nat → Except String SummaryResult)
    (scoreO : Article → Except String ScoreResult)
    (summO : Article → Nat → Except String SummaryResult)
    (article : Article) (sr : ScoreResult) (now : Int) (s : Store)
    (h : ∀ n, (oracle n).toOption = none)
    (hscore : scoreO article = .ok sr)
    (hsumm : summO article = oracle) :
    (SummarizeArticle oracle).2.1 = 3 ∧
    (SummarizeArticle oracle).2.2 = [1 * 2, 2 * 2, 3 * 2] ∧
    (∃ e, (SummarizeArticle oracle).1 = .error e) ∧
    processArticle scoreO summO now s article =
      SaveArticleAnalysis
        { articleID := article.id, relevance := sr.relevance,
          quality := sr.quality, timeliness := sr.timeliness,
          totalScore := sr.relevance + sr.quality + sr.timeliness,
          category := sr.category,
          keywords := String.intercalate ", " sr.keywords,
          aiSummary := "", titleCN := "", recommendReason := "",
          analyzedAt := now, notifiedAt := none } s := by
  obtain ⟨h1, h2, e, h3⟩ := summarizeAux_allFail oracle h maxRetries 1
  refine ⟨h1, by rw [SummarizeArticle, h2]; rfl, ⟨e, h3⟩, ?_⟩
  rw [processArticle, hscore]
  dsimp only
  rw [hsumm]
  rw [show (SummarizeArticle oracle).1 = Except.error e from h3]

/-- Witness for C5: an oracle that always fails, a scorer that returns
fixed scores. -/
theorem summarize_retry_bound_witness :
    (SummarizeArticle (fun _ => .error "boom")).2.1 = 3 ∧
    (SummarizeArticle (fun _ => .error "boom")).2.2 = [1 * 2, 2 * 2, 3 * 2] ∧
    (∃ e, (SummarizeArticle (fun _ => .error "boom")).1 = .error e) ∧
    processArticle (fun _ => .ok ⟨5, 4, 3, "c", ["k1", "k2"]⟩)
        (fun _ => fun _ => .error "boom") 77 (Store.mk [] [] [])
        ⟨1, "a", "t", "u", "", 50, 51⟩ =
      SaveArticleAnalysis
        { articleID := 1, relevance := 5, quality := 4, timeliness := 3,
          totalScore := 5 + 4 + 3, category := "c",
          keywords := String.intercalate ", " ["k1", "k2"],
          aiSummary := "", titleCN := "", recommendReason := "",
          analyzedAt := 77, notifiedAt := none } (Store.mk [] [] []) :=
  summarize_retry_bound (fun _ => .error "boom")
    (fun _ => .ok ⟨5, 4, 3, "c", ["k1", "k2"]⟩)
    (fun _ => fun _ => .error "boom")
    ⟨1, "a", "t", "u", "", 50, 51⟩ ⟨5, 4, 3, "c", ["k1", "k2"]⟩ 77
    (Store.mk [] [] []) (fun _ => rfl) rfl rfl

/-- C6: a Stage-A (score+classify) failure — model-call error or
structural-parse error — writes no analysis row: the store is
unchanged, the enrichment loop simply continues with the remaining
articles, and the article stays in the unanalyzed view for the next
cycle. -/
theorem stageA_failure_no_write (scoreO : Article → Except String ScoreResult)
    (summO : Article → Nat → Except String SummaryResult)
    (article : Article) (e : String) (now : Int) (s : Store)
    (hfail : scoreO article = .error e) :
    processArticle scoreO summO now s article = s ∧
    (∀ rest : List Article,
      analyzeLoop scoreO summO now (article :: rest) s =
        analyzeLoop scoreO summO now rest s) ∧
    (∀ (w : String) (now2 : Int),
      UnanalyzedArticles w now2 (processArticle scoreO summO now s article) =
        UnanalyzedArticles w now2 s) := by
  have h1 : processArticle scoreO summO now s article = s := by
    rw [processArticle, hfail]
  refine ⟨h1, ?_, ?_⟩
  · intro rest
    rw [analyzeLoop, List.foldl_cons, h1, ← analyzeLoop]
  · intro w now2
    rw [h1]

/-- Witness for C6: a scorer that always fails on a one-article
store. -/
theorem stageA_failure_no_write_witness :
    processArticle (fun _ => .error "bad json")
        (fun _ => fun _ => .ok ⟨"s", "t", "r"⟩) 77
        (Store.mk [] [⟨1, "a", "t", "u", "", 50, 51⟩] [])
        ⟨1, "a", "t", "u", "", 50, 51⟩ =
      Store.mk [] [⟨1, "a", "t", "u", "", 50, 51⟩] [] :=
  (stageA_failure_no_write (fun _ => .error "bad json")
    (fun _ => fun _ => .ok ⟨"s", "t", "r"⟩)
    ⟨1, "a", "t", "u", "", 50, 51⟩ "bad json" 77
    (Store.mk [] [⟨1, "a", "t", "u", "", 50, 51⟩] []) rfl).1

theorem scoresSum_of_analyses_eq (s₁ s₂ : Store)
    (he : s₁.analyses = s₂.analyses) (h : scoresSum s₂) : scoresSum s₁ := by
  intro r hr
  rw [he] at hr
  exact h r hr

theorem scoresSum_saveAnalysis (b : ArticleAnalysis) (s : Store)
    (hb : b.totalScore = b.relevance + b.quality + b.timeliness)
    (h : scoresSum s) : scoresSum (SaveArticleAnalysis b s) := by
  intro r' hr'
  rw [SaveArticleAnalysis] at hr'
  revert hr'
  split <;> intro hr'
  · obtain ⟨r, hr, rfl⟩ := List.mem_map.mp hr'
    split
    · exact hb
    · exact h r hr
  · rcases List.mem_append.mp hr' with h1 | h1
    · exact h r' h1
    · rw [List.mem_singleton] at h1
      subst h1
      exact hb

theorem scoresSum_markNotified (ids : List Nat) (t : Int) (s : Store)
    (h : scoresSum s) : scoresSum (MarkNotified ids t s) := by
  intro r' hr'
  rw [MarkNotified] at hr'
  revert hr'
  split <;> intro hr'
  · exact h r' hr'
  · obtain ⟨r, hr, rfl⟩ := List.mem_map.mp hr'
    split
    · exact h r hr
    · exact h r hr

theorem scoresSum_processArticle (scoreO : Article → Except String ScoreResult)
    (summO : Article → Nat → Except String SummaryResult)
    (now : Int) (s : Store) (article : Article)
    (h : scoresSum s) : scoresSum (processArticle scoreO summO now s article) := by
  rw [processArticle]
  cases scoreO article with
  | error e => exact h
  | ok sr =>
    dsimp only
    cases (SummarizeArticle (summO article)).1 with
    | error e => exact scoresSum_saveAnalysis _ s rfl h
    | ok r => exact scoresSum_saveAnalysis _ s rfl h

theorem scoresSum_analyzeLoop (scoreO : Article → Except String ScoreResult)
    (summO : Article → Nat → Except String SummaryResult)
    (now : Int) (articles : List Article) (s : Store)
    (h : scoresSum s) : scoresSum (analyzeLoop scoreO summO now articles s) := by
  induction articles generalizing s with
  | nil => exact h
  | cons a rest ih =>
    rw [analyzeLoop, List.foldl_cons, ← analyzeLoop]
    exact ih _ (scoresSum_processArticle scoreO summO now s a h)

theorem mem_unsummarized_analyses (w : String) (minScore now : Int) (s : Store)
    (items : List ArticleWithAnalysis)
    (h : UnsummarizedHighScoreArticles w minScore now s = .ok items) :
    ∀ p ∈ items, p.analysis ∈ s.analyses := by
  rw [UnsummarizedHighScoreArticles] at h
  cases hw : windowCutoff w now <;> rw [hw] at h
  · cases h
  · injection h with h2
    subst h2
    intro p hp
    have hp2 := (mem_sortByKeyDesc _ _ _).mp hp
    obtain ⟨hj, _⟩ := List.mem_filter.mp hp2
    exact ((mem_joinLists _ _ _).mp hj).2.1

theorem scoresSum_retryFold (summO : Article → Nat → Except String SummaryResult)
    (items : List ArticleWithAnalysis)
    (hitems : ∀ p ∈ items, p.analysis.totalScore =
      p.analysis.relevance + p.analysis.quality + p.analysis.timeliness)
    (st : Store) (h : scoresSum st) :
    scoresSum (items.foldl (retrySummarizeStep summO) st) := by
  induction items generalizing st with
  | nil => exact h
  | cons p rest ih =>
    rw [List.foldl_cons]
    refine ih (fun q hq => hitems q (List.mem_cons_of_mem _ hq)) _ ?_
    rw [retrySummarizeStep]
    cases (SummarizeArticle (summO p.article)).1 with
    | error e => exact h
    | ok r =>
      exact scoresSum_saveAnalysis _ st (hitems p (List.mem_cons_self _ _)) h

theorem scoresSum_retryLoop (summO : Article → Nat → Except String SummaryResult)
    (w : String) (minScore now : Int) (s : Store)
    (h : scoresSum s) : scoresSum (retryLoop summO w minScore now s) := by
  rw [retryLoop]
  cases hq : UnsummarizedHighScoreArticles w minScore now s with
  | error e => exact h
  | ok items =>
    have hmem := mem_unsummarized_analyses w minScore now s items hq
    exact scoresSum_retryFold summO items (fun p hp => h p.analysis (hmem p hp)) s h

theorem scoresSum_notifyStage (tgc trendOK sendOK : Bool) (w : String)
    (now : Int) (s : Store) (h : scoresSum s) :
    scoresSum (notifyStage tgc trendOK sendOK w now s) := by
  rw [notifyStage]
  split
  · exact h
  · cases UnnotifiedAnalyses w now s with
    | error e => exact h
    | ok l =>
      dsimp only
      split
      · exact h
      · split
        · exact h
        · split
          · exact h
          · exact scoresSum_markNotified _ now s h

/-- C4: every writer derives the stored total score from the three
sub-scores, so the invariant "total = relevance + quality + timeliness
for every analysis row" is preserved by a whole pipeline cycle, by the
analyze command, and every row written by the enrichment step satisfies
it. -/
theorem totalScore_invariant (blogsResult : Except String (List Blog))
    (fetch : String → Option (List Article))
    (scoreO : Article → Except String ScoreResult)
    (summO : Article → Nat → Except String SummaryResult)
    (tgc trendOK sendOK : Bool) (w : String) (now : Int) (s : Store)
    (h : scoresSum s) :
    scoresSum (runPipelineModel blogsResult fetch scoreO summO tgc trendOK
      sendOK now s) ∧
    scoresSum (cmdAnalyzeModel scoreO summO w now s) ∧
    (∀ article : Article,
      ∀ r ∈ (processArticle scoreO summO now s article).analyses,
        r.totalScore = r.relevance + r.quality + r.timeliness) := by
  refine ⟨?_, ?_, fun article => scoresSum_processArticle scoreO summO now s article h⟩
  · rw [runPipelineModel.eq_def]
    cases blogsResult with
    | error e => exact h
    | ok blogs =>
      dsimp only
      have h2 : scoresSum (scrapeBlogsRun fetch now blogs (SaveBlogs blogs s)) := by
        refine scoresSum_of_analyses_eq _ s ?_ h
        rw [analyses_scrapeBlogsRun, analyses_saveBlogs]
      cases UnanalyzedArticles "7days" now
          (scrapeBlogsRun fetch now blogs (SaveBlogs blogs s)) with
      | error e => exact h2
      | ok articles =>
        exact scoresSum_notifyStage tgc trendOK sendOK "7days" now _
          (scoresSum_retryLoop summO "7days" 0 now _
            (scoresSum_analyzeLoop scoreO summO now articles _ h2))
  · rw [cmdAnalyzeModel]
    cases ArticlesByTimeWindow w now s with
    | error e => exact h
    | ok articles =>
      dsimp only
      split
      · exact h
      · exact scoresSum_retryLoop summO w 0 now _
          (scoresSum_analyzeLoop scoreO summO now articles s h)

/-- Witness for C4: a full pipeline cycle from the empty store. -/
theorem totalScore_invariant_witness :
    scoresSum (Store.mk [] [] []) ∧
    scoresSum (runPipelineModel (.ok [⟨1, "a", 1, "", 1⟩]) (fun _ => none)
      (fun _ => .ok ⟨5, 4, 3, "c", ["k"]⟩) (fun _ => fun _ => .ok ⟨"s", "t", "r"⟩)
      true true true 100000 (Store.mk [] [] [])) := by
  have h0 : scoresSum (Store.mk [] [] []) := by
    intro r hr
    cases hr
  exact ⟨h0, (totalScore_invariant (.ok [⟨1, "a", 1, "", 1⟩]) (fun _ => none)
    (fun _ => .ok ⟨5, 4, 3, "c", ["k"]⟩) (fun _ => fun _ => .ok ⟨"s", "t", "r"⟩)
    true true true "24h" 100000 (Store.mk [] [] []) h0).1⟩

end Newsbot
